import Mathlib

/-!
Shallow embedding of the tsfc form-compilation driver
(`tsfc/driver.py` and `tsfc/kernel_interface/common.py`).

Python exceptions are modelled by `Except TsfcError`; Python dicts that are
used as association maps are modelled by association lists; `gem.Index`
objects are modelled by a structure carrying an identity and an extent.
-/

/-- Python exceptions raised by the embedded code. -/
inductive TsfcError where
  | valueError (msg : String)
  | notImplementedError (msg : String)
  | assertionError
  | keyError
  | unsupportedArgumentShapeError
deriving DecidableEq

/-- A UFL finite element: only the family and polynomial degree are
consulted by the embedded code. -/
structure UflElement where
  family : String
  degree : Nat
deriving DecidableEq

/-- A UFL coefficient as the aggregator sees it: its global declaration
counter (`count()`) and its function space (represented by an id).
Distinct UFL coefficients carry distinct counts. -/
structure Coefficient where
  count : Nat
  space : Nat
deriving DecidableEq

/-- Association-list lookup, modelling Python dict indexing
(first matching key wins). -/
def assocLookup {α β : Type} [DecidableEq α] : List (α × β) → α → Option β
  | [], _ => none
  | p :: rest, k => if p.1 = k then some p.2 else assocLookup rest k

/-- One `ufl.IntegralData` as consulted by the aggregator: the grouping key
(domain id, integral type, subdomain id). -/
structure IntgData where
  domain : Nat
  integral_type : String
  subdomain_id : Int
deriving DecidableEq

/-- One `ufl.FormData` ("split" form record), restricted to the fields read
by `TSFCFormData.__init__`. -/
structure FormData where
  arguments : List (List Nat)
  reduced_coefficients : List Coefficient
  function_replace_map : List (Coefficient × Coefficient)
  reduced_subspaces : List Nat
  original_subspace_positions : List Nat
  subspace_replace_map : List (Nat × Nat)
  integral_data : List IntgData
deriving DecidableEq

/-- The sort key used at `driver.py:85`: coefficients are ordered by their
declaration counter. -/
def Coefficient.le (a b : Coefficient) : Prop := a.count ≤ b.count

instance : DecidableRel Coefficient.le := fun a b => Nat.decLe a.count b.count

instance : IsTotal Coefficient Coefficient.le :=
  ⟨fun a b => Nat.le_total a.count b.count⟩

instance : IsTrans Coefficient Coefficient.le :=
  ⟨fun _ _ _ hab hbc => Nat.le_trans hab hbc⟩

/-- `driver.py:84-85`: the union of all records' reduced-coefficient lists,
deduplicated, sorted by declaration counter.  (Python iterates a `set` in an
unspecified order before sorting; with distinct counts the sorted result does
not depend on that order, and we model the set by `List.dedup`.) -/
def reducedCoefficients (fds : List FormData) : List Coefficient :=
  List.insertionSort Coefficient.le
    (fds.flatMap FormData.reduced_coefficients).dedup

/-- `driver.py:100-101`: positions in the original form's coefficient list of
the coefficients kept after reduction. -/
def originalCoefficientPositions (original_form_coefficients : List Coefficient)
    (reduced : List Coefficient) : List Nat :=
  (original_form_coefficients.enum.filter (fun p => p.2 ∈ reduced)).map Prod.fst

/-- `driver.py:91-98`: for the i-th reduced coefficient, the first record (in
input order) whose replace map contains it supplies the target's function
space; the target's count is re-assigned to i. -/
def buildFunctionReplaceMap (fds : List FormData) (reduced : List Coefficient) :
    List (Coefficient × Coefficient) :=
  reduced.enum.filterMap (fun p =>
    (fds.findSome? (fun fd => assocLookup fd.function_replace_map p.2)).map
      (fun coeff => (p.2, Coefficient.mk p.1 coeff.space)))

/-- Keep the first occurrence of every element, in first-seen order; models
insertion order of keys in a Python dict populated with `setdefault`. -/
def firstSeen {α : Type} [DecidableEq α] (l : List α) : List α :=
  l.foldl (fun acc k => if k ∈ acc then acc else acc ++ [k]) []

/-- `driver.py:109-125`: grouping keys (domain, integral type, subdomain id)
in first-seen order over all records' integral data. -/
def integralDataKeys (fds : List FormData) : List (Nat × String × Int) :=
  firstSeen ((fds.flatMap FormData.integral_data).map
    (fun d => (d.domain, d.integral_type, d.subdomain_id)))

/-- The fields of a constructed `TSFCFormData` (the AggregatedFormUnit). -/
structure TSFCFormData where
  arguments : List (List Nat)
  reduced_coefficients : List Coefficient
  original_coefficient_positions : List Nat
  function_replace_map : List (Coefficient × Coefficient)
  reduced_subspaces : List Nat
  original_subspace_positions : List Nat
  subspace_replace_map : List (Nat × Nat)
  integral_data_keys : List (Nat × String × Int)
deriving DecidableEq

/-- `TSFCFormData.__init__` (`driver.py:77-125`).  The argument unpacking
`self.arguments, = set(...)` raises `ValueError` unless the records are
non-empty and all share one argument tuple.  Subspace data is taken verbatim
from the first record. -/
def tsfcFormData (form_data_tuple : List FormData)
    (original_form_coefficients : List Coefficient) :
    Except TsfcError TSFCFormData :=
  match form_data_tuple with
  | [] => .error (.valueError "All FormDatas must share the same set of arguments.")
  | fd0 :: rest =>
    if (fd0 :: rest).all (fun fd => fd.arguments = fd0.arguments) then
      .ok { arguments := fd0.arguments
          , reduced_coefficients := reducedCoefficients (fd0 :: rest)
          , original_coefficient_positions :=
              originalCoefficientPositions original_form_coefficients
                (reducedCoefficients (fd0 :: rest))
          , function_replace_map :=
              buildFunctionReplaceMap (fd0 :: rest) (reducedCoefficients (fd0 :: rest))
          , reduced_subspaces := fd0.reduced_subspaces
          , original_subspace_positions := fd0.original_subspace_positions
          , subspace_replace_map := fd0.subspace_replace_map
          , integral_data_keys := integralDataKeys (fd0 :: rest) }
    else
      .error (.valueError "All FormDatas must share the same set of arguments.")

/-! ## Entity lowering (`driver.py:524-564`) -/

/-- The dimension of a FIAT cell or sub-entity: a plain integer for a
simplex-like cell, a (base, extrusion) pair for a `TensorProductCell`. -/
inductive IntDim where
  | flat (d : Int)
  | prod (base extr : Int)
deriving DecidableEq

/-- Which kind of FIAT reference cell we have: `TensorProductCell` or not. -/
inductive CellKind where
  | flatCell (dim : Int)
  | tensorProductCell (basedim extrdim : Int)
deriving DecidableEq

/-- A FIAT reference cell, restricted to what `lower_integral_type` and
`set_quad_rule` consult: its kind/dimension and its topology
(`get_topology()[d]` gives the number of sub-entities of dimension `d`;
a missing key models Python's `KeyError`). -/
structure FiatCell where
  kind : CellKind
  topology : List (IntDim × Nat)
deriving DecidableEq

/-- `fiat_cell.get_dimension()`. -/
def FiatCell.getDimension (c : FiatCell) : IntDim :=
  match c.kind with
  | .flatCell d => .flat d
  | .tensorProductCell b e => .prod b e

/-- Whether the cell is a `TensorProductCell`. -/
def FiatCell.isTensorProduct (c : FiatCell) : Bool :=
  match c.kind with
  | .flatCell _ => false
  | .tensorProductCell _ _ => true

/-- The classifications recognized on an extruded (tensor-product) cell as
vertical facets (`driver.py:531`). -/
def vertFacetTypes : List String := ["exterior_facet_vert", "interior_facet_vert"]

/-- The classifications recognized on an extruded (tensor-product) cell as
horizontal facets (`driver.py:532`). -/
def horizFacetTypes : List String :=
  ["exterior_facet_bottom", "exterior_facet_top", "interior_facet_horiz"]

/-- `lower_integral_type` (`driver.py:524-564`): map an integral
classification to the integration sub-entity dimension and the entity ids of
that dimension. -/
def lower_integral_type (fiat_cell : FiatCell) (integral_type : String) :
    Except TsfcError (IntDim × List Nat) :=
  let dim := fiat_cell.getDimension
  let integration_dim : Except TsfcError IntDim :=
    if integral_type = "cell" then
      .ok dim
    else if integral_type = "exterior_facet" ∨ integral_type = "interior_facet" then
      match fiat_cell.kind with
      | .tensorProductCell _ _ =>
        .error (.valueError (integral_type ++
          " integral cannot be used with a TensorProductCell; need to distinguish between vertical and horizontal contributions."))
      | .flatCell d => .ok (.flat (d - 1))
    else if integral_type = "vertex" then
      .ok (.flat 0)
    else if integral_type ∈ vertFacetTypes ++ horizFacetTypes then
      match fiat_cell.kind with
      | .flatCell _ =>
        .error (.valueError (integral_type ++ " integral requires a TensorProductCell."))
      | .tensorProductCell basedim extrdim =>
        if extrdim = 1 then
          if integral_type ∈ vertFacetTypes then
            .ok (.prod (basedim - 1) 1)
          else
            .ok (.prod basedim 0)
        else
          .error .assertionError
    else
      .error (.notImplementedError ("integral type " ++ integral_type ++ " not supported"))
  match integration_dim with
  | .error e => .error e
  | .ok integration_dim =>
    if integral_type = "exterior_facet_bottom" then
      .ok (integration_dim, [0])
    else if integral_type = "exterior_facet_top" then
      .ok (integration_dim, [1])
    else
      match assocLookup fiat_cell.topology integration_dim with
      | some n => .ok (integration_dim, List.range n)
      | none => .error .keyError

/-! ## Quadrature resolution (`driver.py:327-354`) -/

/-- A quadrature rule as produced by `finat.quadrature.make_quadrature`
(external): an opaque record of the inputs that determine it — the cell, the
integration sub-entity dimension (`construct_subelement`) and the degree. -/
structure QuadRule where
  cell : FiatCell
  integration_dim : IntDim
  degree : Nat
deriving DecidableEq

/-- `make_quadrature(fiat_cell.construct_subelement(integration_dim), degree)`
(external constructor, modelled opaquely). -/
def make_quadrature (cell : FiatCell) (integration_dim : IntDim) (degree : Nat) :
    QuadRule :=
  { cell := cell, integration_dim := integration_dim, degree := degree }

/-- A value stored under the `quadrature_rule` parameter key: an
`AbstractQuadratureRule` instance, the sentinel string `"default"`, or any
other (invalid) value. -/
inductive QuadParamValue where
  | rule (r : QuadRule)
  | defaultSentinel
  | junk (s : String)
deriving DecidableEq

/-- The per-integral parameter set as read by `set_quad_rule`: the optional
`quadrature_degree` override, the estimated polynomial degree attached by
form preprocessing, and the optional `quadrature_rule` entry. -/
structure QuadParams where
  quadrature_degree : Option Nat
  estimated_polynomial_degree : Nat
  quadrature_rule : Option QuadParamValue
deriving DecidableEq

/-- `set_quad_rule` (`driver.py:327-354`).  Returns the updated parameter set
together with the warning flag (`logger.warning` is non-fatal, modelled as a
Boolean in the result). -/
def set_quad_rule (params : QuadParams) (cell : FiatCell) (integral_type : String)
    (functions : List UflElement) : Except TsfcError (QuadParams × Bool) :=
  let degree_warn : Nat × Bool :=
    match params.quadrature_degree with
    | some qd => (qd, false)
    | none =>
      let qd := params.estimated_polynomial_degree
      let function_degrees := functions.map UflElement.degree
      (qd, function_degrees.all (fun degree => 10 * degree < qd))
  let quadrature_degree := degree_warn.1
  let warned := degree_warn.2
  let params1 :=
    if params.quadrature_rule = some QuadParamValue.defaultSentinel then
      { params with quadrature_rule := none }
    else params
  let step : Except TsfcError (QuadParamValue × QuadParams) :=
    match params1.quadrature_rule with
    | some v => .ok (v, params1)
    | none =>
      match lower_integral_type cell integral_type with
      | .error e => .error e
      | .ok (integration_dim, _) =>
        let quad_rule := make_quadrature cell integration_dim quadrature_degree
        .ok (QuadParamValue.rule quad_rule,
             { params1 with quadrature_rule := some (QuadParamValue.rule quad_rule) })
  match step with
  | .error e => .error e
  | .ok (QuadParamValue.rule _, params2) => .ok (params2, warned)
  | .ok (_, _) =>
    .error (.valueError "Expected to find a QuadratureRule object, not something else")

/-! ## Kernel naming and kernel collection (`driver.py:198-254`) -/

/-- `str.replace("-", "_")` on a single-character pattern is a character map. -/
def replaceDash (s : List Char) : List Char :=
  s.map (fun c => if c = '-' then '_' else c)

/-- The kernel name computed at `driver.py:238-239`:
`"%s_%s_integral_%s" % (prefix, integral_type, subdomain_id)` followed by
`.replace("-", "_")`.  Strings are modelled as character lists. -/
def kernelName (pfx : List Char) (integral_type : List Char)
    (subdomain_id : Int) : List Char :=
  replaceDash (pfx ++ "_".data ++ integral_type ++ "_integral_".data ++
    (toString subdomain_id).data)

/-- The kernel-collection loop of `compile_form` (`driver.py:198-207`): one
`compile_integral` call per integral-data group, appending the result only
when it is not `None`.  The whole per-group compilation (ending in the
backend's `construct_kernel`) is abstracted as `construct`. -/
def compileFormKernels {G K : Type} (construct : G → Option K)
    (integral_data_list : List G) : List K :=
  match integral_data_list with
  | [] => []
  | g :: rest =>
    match construct g with
    | some kernel => kernel :: compileFormKernels construct rest
    | none => compileFormKernels construct rest

/-! ## Kernel configuration (`driver.py:272-300`) -/

/-- A `gem.Index`: an object identity and a fixed extent.  Two indices are
the same index object iff they are equal as structures. -/
structure Index where
  id : Nat
  extent : Nat
deriving DecidableEq

/-- Fresh allocation of one dummy multiindex
(`tuple(gem.Index(extent=a.extent) for a in arg)` at `driver.py:276`):
sequential fresh identities, extents copied. -/
def freshArg : Nat → List Index → List Index
  | _, [] => []
  | n, a :: rest => Index.mk n a.extent :: freshArg (n + 1) rest

/-- Fresh allocation of the whole dummy multiindex set, one multiindex per
argument, drawing identities from a counter. -/
def freshMultiindices : Nat → List (List Index) → List (List Index)
  | _, [] => []
  | n, arg :: rest => freshArg n arg :: freshMultiindices (n + arg.length) rest

/-- The fields of the kernel configuration built by `create_kernel_config`
that the embedded claims consult. -/
structure KernelConfig where
  name : List Char
  integral_type : String
  subdomain_id : Int
  argument_multiindices : List (List Index)
  argument_multiindices_dummy : List (List Index)
deriving DecidableEq

/-- `create_kernel_config` (`driver.py:272-300`).  The dummy multiindices are
allocated from the true ones before the diagonal rewrite; under `diagonal`
the unpacking `a, _ = argument_multiindices` requires exactly two arguments
and the trial multiindex is replaced by the test multiindex (the same index
objects). -/
def create_kernel_config (kernel_name : List Char) (integral_type : String)
    (subdomain_id : Int) (argument_multiindices : List (List Index))
    (fresh : Nat) (diagonal : Bool) : Except TsfcError KernelConfig :=
  let argument_multiindices_dummy := freshMultiindices fresh argument_multiindices
  let rewritten : Except TsfcError (List (List Index)) :=
    if diagonal then
      match argument_multiindices with
      | [a, _] => .ok [a, a]
      | _ => .error (.valueError "cannot unpack argument multiindices")
    else
      .ok argument_multiindices
  match rewritten with
  | .error e => .error e
  | .ok ams =>
    .ok { name := kernel_name
        , integral_type := integral_type
        , subdomain_id := subdomain_id
        , argument_multiindices := ams
        , argument_multiindices_dummy := argument_multiindices_dummy }

/-- Modelled from the spec: the kernel-builder backend's argument-registration
step `set_arguments` (external; only its tests and callers are in `src/`).
Spec section 6: "register the kernel's argument tensors; may fail with
`UnsupportedArgumentShapeError` (e.g., illegal diagonal request)", and the
scenario of section 8: diagonal assembly for a rank-2 integral whose test and
trial spaces have unequal tensor extents fails with
`UnsupportedArgumentShapeError`. -/
def set_arguments (diagonal : Bool) (argument_shapes : List (List Nat)) :
    Except TsfcError Unit :=
  if diagonal then
    match argument_shapes with
    | [test, trial] =>
      if trial = test then .ok () else .error .unsupportedArgumentShapeError
    | _ => .error .unsupportedArgumentShapeError
  else .ok ()

/-! ## Dummy-index reconciliation (`driver.py:567-585`) -/

/-- A gem tensor-algebra expression, restricted to the structure relevant to
index substitution: scalar literals, variables indexed by a list of free
indices, sums, products, and index sums (which bind their index). -/
inductive GemExpr where
  | literal (v : Int)
  | indexed (var : String) (idxs : List Index)
  | sum (a b : GemExpr)
  | prod (a b : GemExpr)
  | indexSum (i : Index) (body : GemExpr)
deriving DecidableEq

/-- Apply a substitution list to one index: the first pair whose left
component is the index supplies the replacement; unlisted indices are
left alone. -/
def substIndex : List (Index × Index) → Index → Index
  | [], i => i
  | p :: rest, i => if p.1 = i then p.2 else substIndex rest i

/-- Modelled from the spec: `gem.optimise.filtered_replace_indices` applied
through `MemoizerArg` (external; gem is out of scope of `src/`).  Spec
section 4.5: replace every free occurrence of a dummy index by its paired
true index in a single rewrite pass, leaving untouched any subtree with no
affected free index (memoization by node identity is semantically the
identity and is not modelled).  An `IndexSum` binds its index, so pairs whose
left component is the bound index do not reach the body. -/
def filtered_replace_indices (substitution : List (Index × Index)) :
    GemExpr → GemExpr
  | .literal v => .literal v
  | .indexed x idxs => .indexed x (idxs.map (substIndex substitution))
  | .sum a b => .sum (filtered_replace_indices substitution a)
               (filtered_replace_indices substitution b)
  | .prod a b => .prod (filtered_replace_indices substitution a)
                (filtered_replace_indices substitution b)
  | .indexSum i body =>
    .indexSum i (filtered_replace_indices
      (substitution.filter (fun p => p.1 ≠ i)) body)

/-- `replace_argument_multiindices_dummy` (`driver.py:567-585`): a no-op when
the dummy multiindex set is the true multiindex set, otherwise one flat
positional substitution list pairing dummy with true indices across all
arguments, applied to every expression. -/
def replace_argument_multiindices_dummy (expressions : List GemExpr)
    (kernel_config : KernelConfig) : List GemExpr :=
  let argument_multiindices := kernel_config.argument_multiindices
  let argument_multiindices_dummy := kernel_config.argument_multiindices_dummy
  if argument_multiindices_dummy = argument_multiindices then
    expressions
  else
    let substitution :=
      argument_multiindices_dummy.flatten.zip argument_multiindices.flatten
    expressions.map (fun expr => filtered_replace_indices substitution expr)

/-- The value of a gem expression under an interpretation of its variables
and an assignment of natural values to indices. -/
def GemExpr.eval (var : String → List Nat → Int) (ρ : Index → Nat) :
    GemExpr → Int
  | .literal v => v
  | .indexed x idxs => var x (idxs.map ρ)
  | .sum a b => a.eval var ρ + b.eval var ρ
  | .prod a b => a.eval var ρ * b.eval var ρ
  | .indexSum i body =>
    Finset.sum (Finset.range i.extent)
      (fun n => body.eval var (fun j => if j = i then n else ρ j))

/-- The indices occurring free in an expression. -/
def GemExpr.freeIndices : GemExpr → List Index
  | .literal _ => []
  | .indexed _ idxs => idxs
  | .sum a b => a.freeIndices ++ b.freeIndices
  | .prod a b => a.freeIndices ++ b.freeIndices
  | .indexSum i body => body.freeIndices.filter (fun j => j ≠ i)

/-- The indices bound by some `IndexSum` inside an expression. -/
def GemExpr.boundIndices : GemExpr → List Index
  | .literal _ => []
  | .indexed _ _ => []
  | .sum a b => a.boundIndices ++ b.boundIndices
  | .prod a b => a.boundIndices ++ b.boundIndices
  | .indexSum i body => i :: body.boundIndices

/-! ## Lemmas about index substitution -/

theorem substIndex_not_mem (σ : List (Index × Index)) (j : Index)
    (h : j ∉ σ.map Prod.fst) : substIndex σ j = j := by
  induction σ with
  | nil => rfl
  | cons p rest ih =>
    simp only [List.map_cons, List.mem_cons, not_or] at h
    rw [substIndex, if_neg (fun hh : p.1 = j => h.1 hh.symm)]
    exact ih h.2

theorem substIndex_mem_snd (σ : List (Index × Index)) (j : Index)
    (h : j ∈ σ.map Prod.fst) : substIndex σ j ∈ σ.map Prod.snd := by
  induction σ with
  | nil => cases h
  | cons p rest ih =>
    by_cases hp : p.1 = j
    · rw [substIndex, if_pos hp]
      exact List.mem_cons_self _ _
    · rw [substIndex, if_neg hp]
      simp only [List.map_cons, List.mem_cons] at h
      rcases h with h | h
      · exact absurd h.symm hp
      · exact List.mem_cons_of_mem _ (ih h)

theorem substIndex_filter_self (σ : List (Index × Index)) (i : Index) :
    substIndex (σ.filter (fun p => p.1 ≠ i)) i = i := by
  induction σ with
  | nil => rfl
  | cons p rest ih =>
    by_cases hp : p.1 = i
    · rw [List.filter_cons_of_neg (by simp [hp])]
      exact ih
    · rw [List.filter_cons_of_pos (by simp [hp]), substIndex, if_neg hp]
      exact ih

theorem substIndex_filter_ne (σ : List (Index × Index)) (i j : Index)
    (hji : j ≠ i) :
    substIndex (σ.filter (fun p => p.1 ≠ i)) j = substIndex σ j := by
  induction σ with
  | nil => rfl
  | cons p rest ih =>
    by_cases hp : p.1 = i
    · rw [List.filter_cons_of_neg (by simp [hp])]
      rw [substIndex, if_neg (fun hh : p.1 = j => hji (hp.symm.trans hh).symm)]
      exact ih
    · rw [List.filter_cons_of_pos (by simp [hp])]
      by_cases hpj : p.1 = j
      · rw [substIndex, if_pos hpj, substIndex, if_pos hpj]
      · rw [substIndex, if_neg hpj, substIndex, if_neg hpj]
        exact ih

theorem substIndex_zip_self (l : List Index) (j : Index) :
    substIndex (l.zip l) j = j := by
  induction l with
  | nil => rfl
  | cons a rest ih =>
    rw [List.zip_cons_cons]
    by_cases h : a = j
    · rw [substIndex, if_pos h]
      exact h
    · rw [substIndex, if_neg h]
      exact ih

theorem substIndex_zip_zip (t : List Index) :
    ∀ (d : List Index), t.Nodup → d.Nodup → t.length = d.length →
      ∀ j, j ∉ d → substIndex (d.zip t) (substIndex (t.zip d) j) = j := by
  induction t with
  | nil =>
    intro d _ _ hlen j _
    cases d with
    | nil => rfl
    | cons b d' => exact absurd hlen (by simp)
  | cons a t' ih =>
    intro d ht hd hlen j hjd
    cases d with
    | nil => exact absurd hlen (by simp)
    | cons b d' =>
      have ht' := List.nodup_cons.mp ht
      have hd' := List.nodup_cons.mp hd
      have hlen' : t'.length = d'.length := by
        simpa using hlen
      have hjb : j ≠ b := fun h => hjd (h ▸ List.mem_cons_self _ _)
      have hjd' : j ∉ d' := fun h => hjd (List.mem_cons_of_mem _ h)
      rw [List.zip_cons_cons, List.zip_cons_cons]
      by_cases hja : a = j
      · have hinner : substIndex ((a, b) :: t'.zip d') j = b := by
          rw [substIndex, if_pos hja]
        rw [hinner]
        have houter : substIndex ((b, a) :: d'.zip t') b = a := by
          rw [substIndex, if_pos rfl]
        rw [houter]
        exact hja
      · have hinner : substIndex ((a, b) :: t'.zip d') j
            = substIndex (t'.zip d') j := by
          rw [substIndex, if_neg hja]
        rw [hinner]
        by_cases hjt : j ∈ t'
        · have hu : substIndex (t'.zip d') j ∈ d' := by
            have hkeys : (t'.zip d').map Prod.fst = t' :=
              List.map_fst_zip t' d' (le_of_eq hlen')
            have hvals : (t'.zip d').map Prod.snd = d' :=
              List.map_snd_zip t' d' (ge_of_eq hlen')
            have := substIndex_mem_snd (t'.zip d') j (by rw [hkeys]; exact hjt)
            rwa [hvals] at this
          have houter : substIndex ((b, a) :: d'.zip t') (substIndex (t'.zip d') j)
              = substIndex (d'.zip t') (substIndex (t'.zip d') j) := by
            rw [substIndex, if_neg (fun hh : b = substIndex (t'.zip d') j =>
              hd'.1 (hh.symm ▸ hu))]
          rw [houter]
          exact ih d' ht'.2 hd'.2 hlen' j hjd'
        · have hinner2 : substIndex (t'.zip d') j = j := by
            apply substIndex_not_mem
            rw [List.map_fst_zip t' d' (le_of_eq hlen')]
            exact hjt
          rw [hinner2]
          have houter : substIndex ((b, a) :: d'.zip t') j
              = substIndex (d'.zip t') j := by
            rw [substIndex, if_neg (fun hh : b = j => hjb hh.symm)]
          rw [houter]
          apply substIndex_not_mem
          rw [List.map_fst_zip d' t' (ge_of_eq hlen')]
          exact hjd'

theorem boundIndices_replace (e : GemExpr) :
    ∀ σ, (filtered_replace_indices σ e).boundIndices = e.boundIndices := by
  induction e with
  | literal v => intro σ; rfl
  | indexed x idxs => intro σ; rfl
  | sum a b iha ihb =>
    intro σ
    simp [filtered_replace_indices, GemExpr.boundIndices, iha, ihb]
  | prod a b iha ihb =>
    intro σ
    simp [filtered_replace_indices, GemExpr.boundIndices, iha, ihb]
  | indexSum i body ihb =>
    intro σ
    simp [filtered_replace_indices, GemExpr.boundIndices, ihb]

theorem eval_congr (var : String → List Nat → Int) (e : GemExpr) :
    ∀ (ρ₁ ρ₂ : Index → Nat), (∀ j ∈ e.freeIndices, ρ₁ j = ρ₂ j) →
      e.eval var ρ₁ = e.eval var ρ₂ := by
  induction e with
  | literal v => intro ρ₁ ρ₂ h; rfl
  | indexed x idxs =>
    intro ρ₁ ρ₂ h
    simp only [GemExpr.eval]
    congr 1
    exact List.map_congr_left h
  | sum a b iha ihb =>
    intro ρ₁ ρ₂ h
    simp only [GemExpr.eval]
    rw [iha ρ₁ ρ₂ (fun j hj => h j (List.mem_append_left _ hj)),
        ihb ρ₁ ρ₂ (fun j hj => h j (List.mem_append_right _ hj))]
  | prod a b iha ihb =>
    intro ρ₁ ρ₂ h
    simp only [GemExpr.eval]
    rw [iha ρ₁ ρ₂ (fun j hj => h j (List.mem_append_left _ hj)),
        ihb ρ₁ ρ₂ (fun j hj => h j (List.mem_append_right _ hj))]
  | indexSum i body ihb =>
    intro ρ₁ ρ₂ h
    simp only [GemExpr.eval]
    apply Finset.sum_congr rfl
    intro n _
    apply ihb
    intro j hj
    by_cases hji : j = i
    · rw [if_pos hji, if_pos hji]
    · rw [if_neg hji, if_neg hji]
      apply h
      simp only [GemExpr.freeIndices, List.mem_filter]
      exact ⟨hj, by simp [hji]⟩

theorem eval_replace (var : String → List Nat → Int) (e : GemExpr) :
    ∀ (σ : List (Index × Index)) (ρ : Index → Nat),
      (∀ b ∈ e.boundIndices, b ∉ σ.map Prod.snd) →
      (filtered_replace_indices σ e).eval var ρ
        = e.eval var (fun j => ρ (substIndex σ j)) := by
  induction e with
  | literal v => intro σ ρ hb; rfl
  | indexed x idxs =>
    intro σ ρ hb
    simp only [filtered_replace_indices, GemExpr.eval, List.map_map]
    rfl
  | sum a b iha ihb =>
    intro σ ρ hb
    simp only [filtered_replace_indices, GemExpr.eval]
    rw [iha σ ρ (fun x hx => hb x (List.mem_append_left _ hx)),
        ihb σ ρ (fun x hx => hb x (List.mem_append_right _ hx))]
  | prod a b iha ihb =>
    intro σ ρ hb
    simp only [filtered_replace_indices, GemExpr.eval]
    rw [iha σ ρ (fun x hx => hb x (List.mem_append_left _ hx)),
        ihb σ ρ (fun x hx => hb x (List.mem_append_right _ hx))]
  | indexSum i body ihb =>
    intro σ ρ hb
    simp only [filtered_replace_indices, GemExpr.eval]
    apply Finset.sum_congr rfl
    intro n _
    rw [ihb (σ.filter (fun p => p.1 ≠ i)) _ ?hbody]
    case hbody =>
      intro x hx hmem
      apply hb x (List.mem_cons_of_mem _ hx)
      rw [List.mem_map] at hmem
      obtain ⟨p, hp, hpx⟩ := hmem
      rw [List.mem_map]
      exact ⟨p, List.mem_of_mem_filter hp, hpx⟩
    apply eval_congr
    intro j hj
    by_cases hji : j = i
    · subst hji
      rw [substIndex_filter_self, if_pos rfl, if_pos rfl]
    · rw [substIndex_filter_ne σ i j hji]
      have hni : substIndex σ j ≠ i := by
        by_cases hk : j ∈ σ.map Prod.fst
        · intro hh
          exact hb i (List.mem_cons_self _ _) (hh ▸ substIndex_mem_snd σ j hk)
        · rw [substIndex_not_mem σ j hk]
          exact hji
      rw [if_neg hni, if_neg hji]

/-! ## Coefficient accessor (`kernel_interface/common.py:42-51`) -/

/-- A UFL coefficient as the kernel builder sees it: its element. -/
structure UflCoefficient where
  element : UflElement
deriving DecidableEq

/-- A restriction tag (`'+'`, `'-'`, or none). -/
inductive Restriction where
  | plus
  | minus
  | noRestriction
deriving DecidableEq

/-- The gem expression returned by the coefficient accessor: the registered
kernel argument itself, or one component of it (`kernel_arg[i]`). -/
inductive RestrictedArg (α : Type) where
  | whole (a : α)
  | part (a : α) (i : Nat)
deriving DecidableEq

/-- `KernelBuilderBase` (`kernel_interface/common.py:14-33`), restricted to
the state read by the `coefficient` accessor. -/
structure KernelBuilderBase (α : Type) where
  scalar_type : String
  interior_facet : Bool
  coefficient_map : List (UflCoefficient × α)

/-- `KernelBuilderBase.coefficient` (`kernel_interface/common.py:42-51`).
An unregistered coefficient or a missing restriction tag in the
interior-facet branch is a Python `KeyError`. -/
def KernelBuilderBase.coefficient {α : Type} (b : KernelBuilderBase α)
    (ufl_coefficient : UflCoefficient) (restriction : Restriction) :
    Except TsfcError (RestrictedArg α) :=
  match assocLookup b.coefficient_map ufl_coefficient with
  | none => .error .keyError
  | some kernel_arg =>
    if ufl_coefficient.element.family = "Real" then
      .ok (.whole kernel_arg)
    else if ¬ b.interior_facet then
      .ok (.whole kernel_arg)
    else
      match restriction with
      | .plus => .ok (.part kernel_arg 0)
      | .minus => .ok (.part kernel_arg 1)
      | .noRestriction => .error .keyError

/-! ## Lemmas about the Form-Data Aggregator -/

theorem mem_reducedCoefficients (fds : List FormData) (c : Coefficient) :
    c ∈ reducedCoefficients fds ↔
      ∃ fd, fd ∈ fds ∧ c ∈ fd.reduced_coefficients := by
  unfold reducedCoefficients
  rw [List.mem_insertionSort, List.mem_dedup, List.mem_flatMap]

theorem sorted_reducedCoefficients (fds : List FormData) :
    List.Sorted Coefficient.le (reducedCoefficients fds) :=
  List.sorted_insertionSort Coefficient.le _

theorem nodup_reducedCoefficients (fds : List FormData) :
    (reducedCoefficients fds).Nodup :=
  (List.perm_insertionSort Coefficient.le _).symm.nodup (List.nodup_dedup _)

theorem reducedCoefficients_perm_eq (fds fds' : List FormData)
    (hperm : fds.Perm fds')
    (hinj : ∀ a ∈ fds.flatMap FormData.reduced_coefficients,
            ∀ b ∈ fds.flatMap FormData.reduced_coefficients,
            a.count = b.count → a = b) :
    reducedCoefficients fds = reducedCoefficients fds' := by
  have hflat : (fds.flatMap FormData.reduced_coefficients).Perm
      (fds'.flatMap FormData.reduced_coefficients) :=
    hperm.flatMap_right _
  have hsortperm : (reducedCoefficients fds).Perm (reducedCoefficients fds') := by
    unfold reducedCoefficients
    exact (List.perm_insertionSort _ _).trans
      (hflat.dedup.trans (List.perm_insertionSort _ _).symm)
  refine @List.Perm.eq_of_sorted Coefficient Coefficient.le _ _ ?_ ?_ ?_ hsortperm
  · intro a b ha hb hab hba
    have ha' : a ∈ fds.flatMap FormData.reduced_coefficients := by
      rw [List.mem_flatMap]
      exact (mem_reducedCoefficients fds a).mp ha
    have hb' : b ∈ fds.flatMap FormData.reduced_coefficients := by
      rw [hflat.mem_iff, List.mem_flatMap]
      exact (mem_reducedCoefficients fds' b).mp hb
    exact hinj a ha' b hb' (Nat.le_antisymm hab hba)
  · exact sorted_reducedCoefficients fds
  · exact sorted_reducedCoefficients fds'

/-! ## Claim theorems -/

/-- Claim C1 (amended): for non-empty sets of FormRecords sharing one
argument tuple, the reduced-coefficient list is the union of all records'
reduced-coefficient sets, deduplicated, sorted by declaration order (count),
and — given that distinct coefficients carry distinct counts — the
reduced-coefficient list and the original-coefficient-position list are
invariant under permutation of the input records; the remaining fields of
the AggregatedFormUnit need not be. -/
theorem c1_reduced_coefficient_order (fds fds' : List FormData)
    (orig : List Coefficient)
    (hperm : fds.Perm fds')
    (hinj : ∀ a ∈ fds.flatMap FormData.reduced_coefficients,
            ∀ b ∈ fds.flatMap FormData.reduced_coefficients,
            a.count = b.count → a = b) :
    ((tsfcFormData fds orig).map (fun r =>
        (r.reduced_coefficients, r.original_coefficient_positions))
      = (tsfcFormData fds' orig).map (fun r =>
        (r.reduced_coefficients, r.original_coefficient_positions))) ∧
    (∀ res, tsfcFormData fds orig = .ok res →
      (∀ c, c ∈ res.reduced_coefficients ↔
         ∃ fd, fd ∈ fds ∧ c ∈ fd.reduced_coefficients) ∧
      List.Sorted Coefficient.le res.reduced_coefficients ∧
      res.reduced_coefficients.Nodup) := by
  constructor
  · cases fds with
    | nil =>
      have h' : fds' = [] := hperm.symm.eq_nil
      subst h'
      rfl
    | cons fd0 rest =>
      cases fds' with
      | nil => exact absurd hperm.eq_nil (by simp)
      | cons fd0' rest' =>
        by_cases hall : ∀ fd ∈ (fd0 :: rest), fd.arguments = fd0.arguments
        · have hall' : ∀ fd ∈ (fd0' :: rest'), fd.arguments = fd0'.arguments := by
            intro fd hfd
            have h1 := hall fd (hperm.symm.subset hfd)
            have h2 := hall fd0' (hperm.symm.subset (List.mem_cons_self _ _))
            rw [h1, h2]
          have hcond : ((fd0 :: rest).all
              (fun fd => fd.arguments = fd0.arguments)) = true := by
            simp only [List.all_eq_true, decide_eq_true_eq]
            exact hall
          have hcond' : ((fd0' :: rest').all
              (fun fd => fd.arguments = fd0'.arguments)) = true := by
            simp only [List.all_eq_true, decide_eq_true_eq]
            exact hall'
          have hredeq := reducedCoefficients_perm_eq _ _ hperm hinj
          simp only [tsfcFormData, if_pos hcond, if_pos hcond', Except.map]
          rw [hredeq]
        · have hall' : ¬ ∀ fd ∈ (fd0' :: rest'), fd.arguments = fd0'.arguments := by
            intro hall'
            apply hall
            intro fd hfd
            have h1 := hall' fd (hperm.subset hfd)
            have h2 := hall' fd0 (hperm.subset (List.mem_cons_self _ _))
            rw [h1, h2]
          have hcond : ¬ ((fd0 :: rest).all
              (fun fd => fd.arguments = fd0.arguments)) = true := by
            simp only [List.all_eq_true, decide_eq_true_eq]
            exact hall
          have hcond' : ¬ ((fd0' :: rest').all
              (fun fd => fd.arguments = fd0'.arguments)) = true := by
            simp only [List.all_eq_true, decide_eq_true_eq]
            exact hall'
          simp only [tsfcFormData, if_neg hcond, if_neg hcond', Except.map]
  · intro res hres
    cases fds with
    | nil => exact absurd hres (by simp [tsfcFormData])
    | cons fd0 rest =>
      by_cases hcond : ((fd0 :: rest).all
          (fun fd => fd.arguments = fd0.arguments)) = true
      · simp only [tsfcFormData, if_pos hcond, Except.ok.injEq] at hres
        subst hres
        refine ⟨fun c => mem_reducedCoefficients _ c, ?_, ?_⟩
        · exact sorted_reducedCoefficients _
        · exact nodup_reducedCoefficients _
      · simp only [tsfcFormData, if_neg hcond] at hres
        exact Except.noConfusion hres

instance {ε α : Type} [DecidableEq ε] [DecidableEq α] :
    DecidableEq (Except ε α) := fun x y =>
  match x, y with
  | .ok a, .ok b =>
    if h : a = b then .isTrue (by rw [h]) else .isFalse (by intro hc; cases hc; exact h rfl)
  | .error a, .error b =>
    if h : a = b then .isTrue (by rw [h]) else .isFalse (by intro hc; cases hc; exact h rfl)
  | .ok _, .error _ => .isFalse (by intro hc; cases hc)
  | .error _, .ok _ => .isFalse (by intro hc; cases hc)

/-- FormRecord used in the C1 counterexample and witness. -/
def c1FormA : FormData :=
  { arguments := [[3]]
  , reduced_coefficients := [Coefficient.mk 0 0]
  , function_replace_map := [(Coefficient.mk 0 0, Coefficient.mk 0 0)]
  , reduced_subspaces := [0]
  , original_subspace_positions := []
  , subspace_replace_map := []
  , integral_data := [] }

/-- Same argument tuple as `c1FormA`, different subspace data. -/
def c1FormB : FormData := { c1FormA with reduced_subspaces := [1] }

/-- Claim C1, counterexample to the claim as stated: two FormRecords sharing
one argument tuple whose aggregation is not invariant under permutation of
the input records (the subspace data follows the first record). -/
theorem c1_counterexample :
    tsfcFormData [c1FormA, c1FormB] [Coefficient.mk 0 0]
      ≠ tsfcFormData [c1FormB, c1FormA] [Coefficient.mk 0 0] := by
  decide

/-- Claim C1, witness for the amended theorem at a concrete input. -/
theorem c1_reduced_coefficient_order_witness :
    ([c1FormA, c1FormB] : List FormData).Perm [c1FormB, c1FormA] ∧
    (∀ a ∈ ([c1FormA, c1FormB] : List FormData).flatMap FormData.reduced_coefficients,
     ∀ b ∈ ([c1FormA, c1FormB] : List FormData).flatMap FormData.reduced_coefficients,
     a.count = b.count → a = b) ∧
    (((tsfcFormData [c1FormA, c1FormB] [Coefficient.mk 0 0]).map (fun r =>
        (r.reduced_coefficients, r.original_coefficient_positions))
      = (tsfcFormData [c1FormB, c1FormA] [Coefficient.mk 0 0]).map (fun r =>
        (r.reduced_coefficients, r.original_coefficient_positions))) ∧
    (∀ res, tsfcFormData [c1FormA, c1FormB] [Coefficient.mk 0 0] = .ok res →
      (∀ c, c ∈ res.reduced_coefficients ↔
         ∃ fd, fd ∈ ([c1FormA, c1FormB] : List FormData) ∧
           c ∈ fd.reduced_coefficients) ∧
      List.Sorted Coefficient.le res.reduced_coefficients ∧
      res.reduced_coefficients.Nodup)) :=
  ⟨by decide, by decide,
   c1_reduced_coefficient_order [c1FormA, c1FormB] [c1FormB, c1FormA]
     [Coefficient.mk 0 0] (by decide) (by decide)⟩

/-- Claim C3: entity lowering maps every documented integral classification
to the specified (integration dimension, entity-id list): "cell" to the full
cell dimension, "vertex" to dimension 0, "exterior_facet"/"interior_facet"
to dimension minus one (on a non-product cell), extruded vertical-facet
variants to (base-dimension minus one, 1), extruded horizontal-facet
variants to (base-dimension, 0); "exterior_facet_top" selects entity ids
[1], "exterior_facet_bottom" selects [0], every other recognized
classification enumerates every sub-entity of the computed dimension; any
unrecognized classification fails (the `NotImplementedError` of
`driver.py:555` is the spec's `UnsupportedIntegralTypeError`), never
silently defaulting. -/
theorem c3_lower_integral_type (c : FiatCell) (t : String) :
    (∀ n, assocLookup c.topology c.getDimension = some n →
       lower_integral_type c "cell" = .ok (c.getDimension, List.range n)) ∧
    (∀ n, assocLookup c.topology (.flat 0) = some n →
       lower_integral_type c "vertex" = .ok (.flat 0, List.range n)) ∧
    (∀ d, c.kind = CellKind.flatCell d →
       (t = "exterior_facet" ∨ t = "interior_facet") →
       ∀ n, assocLookup c.topology (.flat (d - 1)) = some n →
       lower_integral_type c t = .ok (.flat (d - 1), List.range n)) ∧
    (∀ b, c.kind = CellKind.tensorProductCell b 1 →
       t ∈ vertFacetTypes →
       ∀ n, assocLookup c.topology (.prod (b - 1) 1) = some n →
       lower_integral_type c t = .ok (.prod (b - 1) 1, List.range n)) ∧
    (∀ b, c.kind = CellKind.tensorProductCell b 1 →
       lower_integral_type c "exterior_facet_top" = .ok (.prod b 0, [1]) ∧
       lower_integral_type c "exterior_facet_bottom" = .ok (.prod b 0, [0])) ∧
    (∀ b, c.kind = CellKind.tensorProductCell b 1 →
       ∀ n, assocLookup c.topology (.prod b 0) = some n →
       lower_integral_type c "interior_facet_horiz" = .ok (.prod b 0, List.range n)) ∧
    (t ∉ ["cell", "exterior_facet", "interior_facet", "vertex"] ++
         vertFacetTypes ++ horizFacetTypes →
       lower_integral_type c t =
         .error (.notImplementedError ("integral type " ++ t ++ " not supported"))) := by
  refine ⟨?_, ?_, ?_, ?_, ?_, ?_, ?_⟩
  · intro n hn
    simp [lower_integral_type, vertFacetTypes, horizFacetTypes, hn]
  · intro n hn
    simp [lower_integral_type, vertFacetTypes, horizFacetTypes, hn]
  · rintro d hd (rfl | rfl) n hn <;>
      simp [lower_integral_type, vertFacetTypes, horizFacetTypes, hd, hn]
  · intro b hb ht n hn
    simp only [vertFacetTypes, List.mem_cons, List.not_mem_nil, or_false] at ht
    rcases ht with rfl | rfl <;>
      simp [lower_integral_type, vertFacetTypes, horizFacetTypes, hb, hn]
  · intro b hb
    constructor <;>
      simp [lower_integral_type, vertFacetTypes, horizFacetTypes, hb]
  · intro b hb n hn
    simp [lower_integral_type, vertFacetTypes, horizFacetTypes, hb, hn]
  · intro ht
    have hne : ∀ s ∈ ["cell", "exterior_facet", "interior_facet", "vertex"] ++
        vertFacetTypes ++ horizFacetTypes, t ≠ s := by
      intro s hs hts
      exact ht (hts ▸ hs)
    have h1 := hne "cell" (by decide)
    have h2 := hne "exterior_facet" (by decide)
    have h3 := hne "interior_facet" (by decide)
    have h4 := hne "vertex" (by decide)
    have h5 := hne "exterior_facet_vert" (by decide)
    have h6 := hne "interior_facet_vert" (by decide)
    have h7 := hne "exterior_facet_bottom" (by decide)
    have h8 := hne "exterior_facet_top" (by decide)
    have h9 := hne "interior_facet_horiz" (by decide)
    simp [lower_integral_type, vertFacetTypes, horizFacetTypes,
      h1, h2, h3, h4, h5, h6, h7, h8, h9]

/-- Reference cell used in the C3 witness: a triangle. -/
def c3Triangle : FiatCell :=
  { kind := CellKind.flatCell 2
  , topology := [(IntDim.flat 0, 3), (IntDim.flat 1, 3), (IntDim.flat 2, 1)] }

/-- Claim C3, witness at a concrete input. -/
theorem c3_lower_integral_type_witness :
    assocLookup c3Triangle.topology c3Triangle.getDimension = some 1 ∧
    lower_integral_type c3Triangle "cell" =
      .ok (c3Triangle.getDimension, List.range 1) ∧
    ("foo" ∉ ["cell", "exterior_facet", "interior_facet", "vertex"] ++
         vertFacetTypes ++ horizFacetTypes) ∧
    lower_integral_type c3Triangle "foo" =
      .error (.notImplementedError ("integral type " ++ "foo" ++ " not supported")) :=
  ⟨by decide, (c3_lower_integral_type c3Triangle "foo").1 1 (by decide),
   by decide,
   (c3_lower_integral_type c3Triangle "foo").2.2.2.2.2.2 (by decide)⟩

theorem all_map_degree (fns : List UflElement) (pest : Nat) :
    ((fns.map UflElement.degree).all fun degree => decide (10 * degree < pest)) =
    fns.all fun f => decide (10 * f.degree < pest) := by
  induction fns with
  | nil => rfl
  | cons a t ih => simp only [List.map_cons, List.all_cons, ih]

/-- The parameter set with the `quadrature_rule` entry set to a rule, as
written back at `driver.py:350`. -/
def QuadParams.withRule (p : QuadParams) (r : QuadRule) : QuadParams :=
  { p with quadrature_rule := some (QuadParamValue.rule r) }

/-- Claim C4: an explicit `quadrature_degree` override is used verbatim and
the estimated polynomial degree is not consulted (the resolved rule and the
warning flag are independent of it, and no warning is emitted); with no
override the estimated polynomial degree attached to the integral is used,
and a non-fatal warning flag is set exactly when the chosen degree exceeds
ten times the degree of every function entering the integral, with the
resolution proceeding unchanged. -/
theorem c4_quadrature_degree (params : QuadParams) (cell : FiatCell)
    (it : String) (fns : List UflElement) :
    (∀ qd, params.quadrature_degree = some qd →
      (∀ est, (set_quad_rule { params with estimated_polynomial_degree := est }
            cell it fns).map (fun r => (r.1.quadrature_rule, r.2))
        = (set_quad_rule params cell it fns).map
            (fun r => (r.1.quadrature_rule, r.2))) ∧
      (params.quadrature_rule = none →
        set_quad_rule params cell it fns
          = (lower_integral_type cell it).map (fun li =>
              (params.withRule (make_quadrature cell li.1 qd), false)))) ∧
    (params.quadrature_degree = none → params.quadrature_rule = none →
      set_quad_rule params cell it fns
        = (lower_integral_type cell it).map (fun li =>
            (params.withRule
               (make_quadrature cell li.1 params.estimated_polynomial_degree),
             fns.all (fun f => 10 * f.degree < params.estimated_polynomial_degree)))) := by
  obtain ⟨pqd, pest, pqr⟩ := params
  constructor
  · rintro qd rfl
    constructor
    · intro est
      cases pqr with
      | none =>
        cases hlow : lower_integral_type cell it <;>
          simp [set_quad_rule, hlow, Except.map]
      | some v =>
        cases v with
        | rule r => simp [set_quad_rule, Except.map]
        | defaultSentinel =>
          cases hlow : lower_integral_type cell it <;>
            simp [set_quad_rule, hlow, Except.map]
        | junk s => simp [set_quad_rule, Except.map]
    · rintro rfl
      cases hlow : lower_integral_type cell it <;>
        simp [set_quad_rule, hlow, Except.map, QuadParams.withRule]
  · rintro rfl rfl
    cases hlow : lower_integral_type cell it <;>
      simp [set_quad_rule, hlow, Except.map, QuadParams.withRule, all_map_degree]

/-- Parameter set used in the C4 witness. -/
def c4Params : QuadParams :=
  { quadrature_degree := some 4, estimated_polynomial_degree := 7
  , quadrature_rule := none }

/-- Claim C4, witness at a concrete input. -/
theorem c4_quadrature_degree_witness :
    c4Params.quadrature_degree = some 4 ∧
    c4Params.quadrature_rule = none ∧
    (set_quad_rule c4Params c3Triangle "cell" []
      = (lower_integral_type c3Triangle "cell").map (fun li =>
          (c4Params.withRule (make_quadrature c3Triangle li.1 4), false))) :=
  ⟨rfl, rfl,
   ((c4_quadrature_degree c4Params c3Triangle "cell" []).1 4 rfl).2 rfl⟩

/-- Claim C9: with an explicit quadrature-rule object supplied via the
parameters, resolution validates its concrete type and uses it unchanged —
failing with `InvalidQuadratureRuleError` (the `ValueError` of
`driver.py:352-354`) exactly when the supplied object is not an
`AbstractQuadratureRule` — and on success the active parameter set still
carries the supplied rule under `quadrature_rule`, so later stages retrieve
it without recomputation. -/
theorem c9_explicit_rule (params : QuadParams) (cell : FiatCell)
    (it : String) (fns : List UflElement) (v : QuadParamValue)
    (hv : params.quadrature_rule = some v)
    (hnd : v ≠ QuadParamValue.defaultSentinel) :
    (∀ r, v = QuadParamValue.rule r →
       set_quad_rule params cell it fns = .ok (params,
         match params.quadrature_degree with
         | some _ => false
         | none => fns.all (fun f =>
             10 * f.degree < params.estimated_polynomial_degree))) ∧
    ((∀ r, v ≠ QuadParamValue.rule r) →
       set_quad_rule params cell it fns =
         .error (.valueError
           "Expected to find a QuadratureRule object, not something else")) := by
  obtain ⟨pqd, pest, pqr⟩ := params
  simp only [QuadParams.mk.injEq] at hv ⊢
  subst hv
  constructor
  · rintro r rfl
    cases pqd <;> simp [set_quad_rule, all_map_degree]
  · intro hnr
    cases v with
    | rule r => exact absurd rfl (hnr r)
    | defaultSentinel => exact absurd rfl hnd
    | junk s =>
      cases pqd <;> simp [set_quad_rule, all_map_degree]

/-- Quadrature rule used in the C9 witness. -/
def c9Rule : QuadRule := make_quadrature c3Triangle (IntDim.flat 2) 2

/-- Parameter set used in the C9 witness. -/
def c9Params : QuadParams :=
  { quadrature_degree := none, estimated_polynomial_degree := 2
  , quadrature_rule := some (QuadParamValue.rule c9Rule) }

/-- Claim C9, witness at a concrete input. -/
theorem c9_explicit_rule_witness :
    c9Params.quadrature_rule = some (QuadParamValue.rule c9Rule) ∧
    QuadParamValue.rule c9Rule ≠ QuadParamValue.defaultSentinel ∧
    set_quad_rule c9Params c3Triangle "cell" [] = .ok (c9Params, true) :=
  ⟨rfl, by decide,
   by
    have h := (c9_explicit_rule c9Params c3Triangle "cell" []
      (QuadParamValue.rule c9Rule) rfl (by decide)).1 c9Rule rfl
    simpa using h⟩

/-- Claim C8: a sequence of FormRecords whose argument tuples are not all
identical fails with one `InconsistentArgumentsError` (the `ValueError` of
`driver.py:83`) and produces no partial AggregatedFormUnit. -/
theorem c8_inconsistent_arguments (fds : List FormData)
    (orig : List Coefficient) (fd1 fd2 : FormData)
    (h1 : fd1 ∈ fds) (h2 : fd2 ∈ fds)
    (hne : fd1.arguments ≠ fd2.arguments) :
    tsfcFormData fds orig =
      .error (.valueError "All FormDatas must share the same set of arguments.") := by
  cases fds with
  | nil => cases h1
  | cons fd0 rest =>
    have hcond : ¬ ((fd0 :: rest).all
        (fun fd => fd.arguments = fd0.arguments)) = true := by
      simp only [List.all_eq_true, decide_eq_true_eq]
      intro h
      exact hne ((h fd1 h1).trans (h fd2 h2).symm)
    simp only [tsfcFormData, if_neg hcond]

/-- FormRecord used in the C8 witness. -/
def c8FormA : FormData :=
  { arguments := [[2]]
  , reduced_coefficients := []
  , function_replace_map := []
  , reduced_subspaces := []
  , original_subspace_positions := []
  , subspace_replace_map := []
  , integral_data := [] }

/-- A FormRecord with a different argument tuple than `c8FormA`. -/
def c8FormB : FormData := { c8FormA with arguments := [[3]] }

/-- Claim C8, witness at a concrete input. -/
theorem c8_inconsistent_arguments_witness :
    c8FormA ∈ ([c8FormA, c8FormB] : List FormData) ∧
    c8FormB ∈ ([c8FormA, c8FormB] : List FormData) ∧
    c8FormA.arguments ≠ c8FormB.arguments ∧
    tsfcFormData [c8FormA, c8FormB] [] =
      .error (.valueError "All FormDatas must share the same set of arguments.") :=
  ⟨by decide, by decide, by decide,
   c8_inconsistent_arguments [c8FormA, c8FormB] [] c8FormA c8FormB
     (by decide) (by decide) (by decide)⟩

/-- Claim C5: `compile_form` returns exactly one kernel per integral-data
group whose backend `construct_kernel` output is non-null — a null kernel is
filtered out, not surfaced as an error — and the kernel name is
`prefix_integraltype_integral_subdomainid` with every dash replaced by an
underscore, so subdomain id -1 yields a name ending in `_integral__1` with
no literal dash character. -/
theorem c5_compile_form {G K : Type} (construct : G → Option K)
    (groups : List G) (pfx integral_type : List Char) :
    compileFormKernels construct groups = groups.filterMap construct ∧
    (∀ subdomain_id : Int, '-' ∉ kernelName pfx integral_type subdomain_id) ∧
    List.IsSuffix "_integral__1".data (kernelName pfx integral_type (-1)) := by
  refine ⟨?_, ?_, ?_⟩
  · induction groups with
    | nil => rfl
    | cons g rest ih =>
      cases hg : construct g <;>
        simp [compileFormKernels, List.filterMap_cons, hg, ih]
  · intro sid hmem
    unfold kernelName replaceDash at hmem
    rw [List.mem_map] at hmem
    obtain ⟨a, _, ha⟩ := hmem
    by_cases h : a = '-'
    · rw [if_pos h] at ha
      exact absurd ha (by decide)
    · rw [if_neg h] at ha
      exact h ha
  · refine ⟨replaceDash (pfx ++ "_".data ++ integral_type), ?_⟩
    unfold kernelName replaceDash
    simp only [List.map_append, List.append_assoc]
    congr 3

/-- Claim C6: under diagonal assembly of a rank-2 local tensor, the Kernel
Configuration Builder replaces the trial-space argument multiindex with the
test-space argument multiindex (the same index objects), so the true
argument multiindex pair becomes (test, test); legality is checked by the
kernel builder's `set_arguments`, which fails with
`UnsupportedArgumentShapeError` exactly when the test and trial tensor
extents differ. -/
theorem c6_diagonal (kernel_name : List Char) (integral_type : String)
    (subdomain_id : Int) (a b : List Index) (fresh : Nat) :
    create_kernel_config kernel_name integral_type subdomain_id [a, b] fresh true
      = .ok { name := kernel_name
            , integral_type := integral_type
            , subdomain_id := subdomain_id
            , argument_multiindices := [a, a]
            , argument_multiindices_dummy := freshMultiindices fresh [a, b] } ∧
    (∀ testShape trialShape : List Nat, testShape ≠ trialShape →
       set_arguments true [testShape, trialShape]
         = .error .unsupportedArgumentShapeError) ∧
    (∀ testShape : List Nat, set_arguments true [testShape, testShape] = .ok ()) := by
  refine ⟨rfl, ?_, ?_⟩
  · intro t tr hne
    simp only [set_arguments]
    rw [if_neg (fun h : tr = t => hne h.symm)]
    simp
  · intro t
    simp [set_arguments]

/-- Claim C6, witness at a concrete input. -/
theorem c6_diagonal_witness :
    create_kernel_config "k".data "cell" 0
        [[Index.mk 0 2], [Index.mk 1 2]] 10 true
      = .ok { name := "k".data
            , integral_type := "cell"
            , subdomain_id := 0
            , argument_multiindices := [[Index.mk 0 2], [Index.mk 0 2]]
            , argument_multiindices_dummy :=
                freshMultiindices 10 [[Index.mk 0 2], [Index.mk 1 2]] } ∧
    ([2] : List Nat) ≠ [3] ∧
    set_arguments true [[2], [3]] = .error .unsupportedArgumentShapeError :=
  ⟨(c6_diagonal "k".data "cell" 0 [Index.mk 0 2] [Index.mk 1 2] 10).1,
   by decide,
   (c6_diagonal "k".data "cell" 0 [Index.mk 0 2] [Index.mk 1 2] 10).2.1
     [2] [3] (by decide)⟩

theorem freshArg_extents (n : Nat) (arg : List Index) :
    (freshArg n arg).map Index.extent = arg.map Index.extent := by
  induction arg generalizing n with
  | nil => rfl
  | cons a rest ih => simp [freshArg, ih]

theorem freshMultiindices_extents (n : Nat) (ams : List (List Index)) :
    (freshMultiindices n ams).map (fun mi => mi.map Index.extent)
      = ams.map (fun mi => mi.map Index.extent) := by
  induction ams generalizing n with
  | nil => rfl
  | cons arg rest ih => simp [freshMultiindices, freshArg_extents, ih]

/-- Claim C7, counterexample to the claim as stated: a KernelConfig built by
`create_kernel_config` under diagonal assembly with unequal test/trial
extents whose dummy multiindex shapes differ from its true multiindex
shapes. -/
theorem c7_counterexample :
    ((create_kernel_config "k".data "cell" 0
        [[Index.mk 0 2], [Index.mk 1 3]] 10 true).map
      (fun cfg => (cfg.argument_multiindices.map (fun mi => mi.map Index.extent),
                   cfg.argument_multiindices_dummy.map (fun mi => mi.map Index.extent))))
      = .ok ([[2], [2]], [[2], [3]]) ∧
    ([[2], [2]] : List (List Nat)) ≠ [[2], [3]] := by
  exact ⟨by decide, by decide⟩

/-- Claim C7 (amended): the dummy argument multiindex set of a built
KernelConfig has the same shape (extents, in order) as the true argument
multiindex set whenever no diagonal rewrite occurred, or when the diagonal
rewrite is applied to a pair of arguments with equal extents; under a
diagonal rewrite with unequal extents the shapes differ (the dummy set keeps
the original (test, trial) shapes while the true set is (test, test)). -/
theorem c7_dummy_shapes (kernel_name : List Char) (integral_type : String)
    (subdomain_id : Int) (ams : List (List Index)) (fresh : Nat)
    (diagonal : Bool) (cfg : KernelConfig)
    (hok : create_kernel_config kernel_name integral_type subdomain_id ams
            fresh diagonal = .ok cfg)
    (hside : diagonal = false ∨
      ∃ a b, ams = [a, b] ∧ a.map Index.extent = b.map Index.extent) :
    cfg.argument_multiindices_dummy.map (fun mi => mi.map Index.extent)
      = cfg.argument_multiindices.map (fun mi => mi.map Index.extent) := by
  cases diagonal with
  | false =>
    have heq : create_kernel_config kernel_name integral_type subdomain_id ams
        fresh false
      = .ok { name := kernel_name
            , integral_type := integral_type
            , subdomain_id := subdomain_id
            , argument_multiindices := ams
            , argument_multiindices_dummy := freshMultiindices fresh ams } := rfl
    rw [heq] at hok
    obtain rfl := Except.ok.inj hok
    exact freshMultiindices_extents fresh ams
  | true =>
    rcases hside with hfalse | ⟨a, b, hab, hext⟩
    · exact absurd hfalse (by decide)
    · subst hab
      have heq : create_kernel_config kernel_name integral_type subdomain_id [a, b]
          fresh true
        = .ok { name := kernel_name
              , integral_type := integral_type
              , subdomain_id := subdomain_id
              , argument_multiindices := [a, a]
              , argument_multiindices_dummy := freshMultiindices fresh [a, b] } := rfl
      rw [heq] at hok
      obtain rfl := Except.ok.inj hok
      simp [freshMultiindices, freshArg_extents, hext]

/-- Claim C7, witness for the amended theorem at a concrete input. -/
theorem c7_dummy_shapes_witness :
    create_kernel_config "k".data "cell" 0 [[Index.mk 0 2]] 10 false
      = .ok { name := "k".data
            , integral_type := "cell"
            , subdomain_id := 0
            , argument_multiindices := [[Index.mk 0 2]]
            , argument_multiindices_dummy := [[Index.mk 10 2]] } ∧
    (({ name := "k".data
      , integral_type := "cell"
      , subdomain_id := 0
      , argument_multiindices := [[Index.mk 0 2]]
      , argument_multiindices_dummy := [[Index.mk 10 2]] } :
        KernelConfig).argument_multiindices_dummy.map (fun mi => mi.map Index.extent)
      = ({ name := "k".data
         , integral_type := "cell"
         , subdomain_id := 0
         , argument_multiindices := [[Index.mk 0 2]]
         , argument_multiindices_dummy := [[Index.mk 10 2]] } :
          KernelConfig).argument_multiindices.map (fun mi => mi.map Index.extent)) :=
  ⟨by decide,
   c7_dummy_shapes "k".data "cell" 0 [[Index.mk 0 2]] 10 false _
     (by decide) (Or.inl rfl)⟩

/-- Claim C10: a coefficient whose element family is Real is returned as the
registered kernel argument unmodified, for every restriction and also on
interior-facet kernels; any other coefficient on an interior-facet kernel is
restricted to component 0 for restriction plus and component 1 for
restriction minus. -/
theorem c10_coefficient {α : Type} (b : KernelBuilderBase α)
    (c : UflCoefficient) (arg : α)
    (hmap : assocLookup b.coefficient_map c = some arg) :
    (c.element.family = "Real" →
       ∀ restriction, b.coefficient c restriction = .ok (.whole arg)) ∧
    (c.element.family ≠ "Real" → b.interior_facet = true →
       b.coefficient c .plus = .ok (.part arg 0) ∧
       b.coefficient c .minus = .ok (.part arg 1)) := by
  constructor
  · intro hfam restriction
    simp [KernelBuilderBase.coefficient, hmap, hfam]
  · intro hfam hif
    constructor <;>
      simp [KernelBuilderBase.coefficient, hmap, hfam, hif]

/-- Kernel builder used in the C10 witness: an interior-facet builder with
one Real coefficient and one non-Real coefficient registered. -/
def c10Builder : KernelBuilderBase Nat :=
  { scalar_type := "double"
  , interior_facet := true
  , coefficient_map :=
      [(UflCoefficient.mk (UflElement.mk "Real" 0), 7),
       (UflCoefficient.mk (UflElement.mk "Lagrange" 1), 8)] }

/-- Claim C10, witness at a concrete input. -/
theorem c10_coefficient_witness :
    assocLookup c10Builder.coefficient_map
        (UflCoefficient.mk (UflElement.mk "Real" 0)) = some 7 ∧
    assocLookup c10Builder.coefficient_map
        (UflCoefficient.mk (UflElement.mk "Lagrange" 1)) = some 8 ∧
    (c10Builder.coefficient (UflCoefficient.mk (UflElement.mk "Real" 0))
        Restriction.minus = .ok (.whole 7)) ∧
    (c10Builder.coefficient (UflCoefficient.mk (UflElement.mk "Lagrange" 1))
        Restriction.plus = .ok (.part 8 0)) ∧
    (c10Builder.coefficient (UflCoefficient.mk (UflElement.mk "Lagrange" 1))
        Restriction.minus = .ok (.part 8 1)) :=
  ⟨by decide, by decide,
   (c10_coefficient c10Builder (UflCoefficient.mk (UflElement.mk "Real" 0)) 7
      (by decide)).1 (by decide) Restriction.minus,
   ((c10_coefficient c10Builder (UflCoefficient.mk (UflElement.mk "Lagrange" 1)) 8
      (by decide)).2 (by decide) (by decide)).1,
   ((c10_coefficient c10Builder (UflCoefficient.mk (UflElement.mk "Lagrange" 1)) 8
      (by decide)).2 (by decide) (by decide)).2⟩

/-- Claim C2: the Dummy-Index Reconciler returns its input expressions
unchanged when the dummy multiindex set is the true multiindex set (same
index identities); otherwise it replaces every free occurrence of a dummy
argument index by its positionally paired true index, so that for any
integrand — the expression compiled with dummy indices being the
true-compiled expression with true indices renamed to dummies — reconciling
yields an expression that evaluates identically to the true-compiled one for
every assignment of index values within the declared extents. -/
theorem c2_dummy_index_reconciliation (cfg : KernelConfig)
    (es : List GemExpr) (e : GemExpr)
    (var : String → List Nat → Int) (ρ : Index → Nat)
    (hρ : ∀ i ∈ e.freeIndices, ρ i < i.extent)
    (hlen : cfg.argument_multiindices.flatten.length
          = cfg.argument_multiindices_dummy.flatten.length)
    (htnodup : cfg.argument_multiindices.flatten.Nodup)
    (hdnodup : cfg.argument_multiindices_dummy.flatten.Nodup)
    (hfresh : ∀ i ∈ cfg.argument_multiindices_dummy.flatten, i ∉ e.freeIndices)
    (hbound : ∀ b ∈ e.boundIndices,
        b ∉ cfg.argument_multiindices.flatten ∧
        b ∉ cfg.argument_multiindices_dummy.flatten) :
    (cfg.argument_multiindices_dummy = cfg.argument_multiindices →
       replace_argument_multiindices_dummy es cfg = es) ∧
    (replace_argument_multiindices_dummy
        [filtered_replace_indices
          (cfg.argument_multiindices.flatten.zip
            cfg.argument_multiindices_dummy.flatten) e] cfg).map
      (GemExpr.eval var ρ) = [e.eval var ρ] := by
  constructor
  · intro h
    simp [replace_argument_multiindices_dummy, h]
  · by_cases hcase :
      cfg.argument_multiindices_dummy = cfg.argument_multiindices
    · have hnoop : replace_argument_multiindices_dummy
          [filtered_replace_indices
            (cfg.argument_multiindices.flatten.zip
              cfg.argument_multiindices_dummy.flatten) e] cfg
          = [filtered_replace_indices
              (cfg.argument_multiindices.flatten.zip
                cfg.argument_multiindices_dummy.flatten) e] := by
        simp only [replace_argument_multiindices_dummy, if_pos hcase]
      rw [hnoop, hcase, List.map_cons, List.map_nil]
      have hbt : ∀ b ∈ e.boundIndices,
          b ∉ ((cfg.argument_multiindices.flatten.zip
            cfg.argument_multiindices.flatten).map Prod.snd) := by
        intro b hbmem
        rw [List.map_snd_zip _ _ (le_refl _)]
        exact (hbound b hbmem).1
      rw [eval_replace var e _ ρ hbt]
      have : e.eval var
          (fun j => ρ (substIndex (cfg.argument_multiindices.flatten.zip
            cfg.argument_multiindices.flatten) j)) = e.eval var ρ := by
        apply eval_congr
        intro j _
        rw [substIndex_zip_self]
      rw [this]
    · have hmain : replace_argument_multiindices_dummy
          [filtered_replace_indices
            (cfg.argument_multiindices.flatten.zip
              cfg.argument_multiindices_dummy.flatten) e] cfg
          = [filtered_replace_indices
              (cfg.argument_multiindices_dummy.flatten.zip
                cfg.argument_multiindices.flatten)
              (filtered_replace_indices
                (cfg.argument_multiindices.flatten.zip
                  cfg.argument_multiindices_dummy.flatten) e)] := by
        simp only [replace_argument_multiindices_dummy, if_neg hcase,
          List.map_cons, List.map_nil]
      rw [hmain, List.map_cons, List.map_nil]
      have houter : ∀ b ∈ (filtered_replace_indices
          (cfg.argument_multiindices.flatten.zip
            cfg.argument_multiindices_dummy.flatten) e).boundIndices,
          b ∉ ((cfg.argument_multiindices_dummy.flatten.zip
            cfg.argument_multiindices.flatten).map Prod.snd) := by
        intro b hbmem
        rw [boundIndices_replace] at hbmem
        rw [List.map_snd_zip _ _ (le_of_eq hlen)]
        exact (hbound b hbmem).1
      rw [eval_replace var _ _ ρ houter]
      have hinner : ∀ b ∈ e.boundIndices,
          b ∉ ((cfg.argument_multiindices.flatten.zip
            cfg.argument_multiindices_dummy.flatten).map Prod.snd) := by
        intro b hbmem
        rw [List.map_snd_zip _ _ (ge_of_eq hlen)]
        exact (hbound b hbmem).2
      rw [eval_replace var e _ _ hinner]
      have : e.eval var
          (fun j => ρ (substIndex
            (cfg.argument_multiindices_dummy.flatten.zip
              cfg.argument_multiindices.flatten)
            (substIndex (cfg.argument_multiindices.flatten.zip
              cfg.argument_multiindices_dummy.flatten) j)))
          = e.eval var ρ := by
        apply eval_congr
        intro j hj
        have hjd : j ∉ cfg.argument_multiindices_dummy.flatten := by
          intro hmem
          exact hfresh j hmem hj
        rw [substIndex_zip_zip _ _ htnodup hdnodup hlen j hjd]
      rw [this]

/-- KernelConfig used in the C2 witness. -/
def c2Config : KernelConfig :=
  { name := []
  , integral_type := "cell"
  , subdomain_id := 0
  , argument_multiindices := [[Index.mk 0 2]]
  , argument_multiindices_dummy := [[Index.mk 5 2]] }

/-- Integrand expression used in the C2 witness (compiled with the true
argument index). -/
def c2Expr : GemExpr := GemExpr.indexed "A" [Index.mk 0 2]

/-- Variable interpretation used in the C2 witness. -/
def c2Var : String → List Nat → Int := fun _ l => Int.ofNat (l.headD 0)

/-- Index assignment used in the C2 witness. -/
def c2Rho : Index → Nat := fun _ => 1

/-- Claim C2, witness at a concrete input. -/
theorem c2_dummy_index_reconciliation_witness :
    (∀ i ∈ c2Expr.freeIndices, c2Rho i < i.extent) ∧
    (∀ i ∈ c2Config.argument_multiindices_dummy.flatten,
       i ∉ c2Expr.freeIndices) ∧
    ((c2Config.argument_multiindices_dummy = c2Config.argument_multiindices →
        replace_argument_multiindices_dummy [c2Expr] c2Config = [c2Expr]) ∧
     (replace_argument_multiindices_dummy
        [filtered_replace_indices
          (c2Config.argument_multiindices.flatten.zip
            c2Config.argument_multiindices_dummy.flatten) c2Expr] c2Config).map
       (GemExpr.eval c2Var c2Rho) = [c2Expr.eval c2Var c2Rho]) :=
  ⟨by decide, by decide,
   c2_dummy_index_reconciliation c2Config [c2Expr] c2Expr c2Var c2Rho
     (by decide) (by decide) (by decide) (by decide) (by decide) (by decide)⟩
